import Mathlib

/-!
Shallow embedding of `src/main.py`, a Dropbox memo-file archival script.

The script recursively scans a folder tree, partitions each folder's children
into memo files / other files / subfolders, moves memo files to an archive
folder, applies a "leaf-archive" rule to subfolders containing exactly one
memo file and nothing else, and otherwise recurses.  The remote store
(the Dropbox API) is modelled as an environment `Env` supplying, per path,
the pages a listing would return (with a possible error), the outcome of
each move call, and metadata/create outcomes for the archive folder.
Mutating API calls are recorded as `Op` values; log lines as `Log` values.
-/

namespace SdaDropbox

/-- Python `needle in hay` substring test, step 1: does `needle` start `hay`? -/
def list_starts_with : List Char → List Char → Bool
  | [], _ => true
  | _ :: _, [] => false
  | a :: as, b :: bs => a == b && list_starts_with as bs

/-- Python substring containment `needle in hay` over character lists. -/
def contains_sub (needle : List Char) : List Char → Bool
  | [] => list_starts_with needle []
  | c :: t => list_starts_with needle (c :: t) || contains_sub needle t

/-- Python `str.lower()` (character-wise lowercasing). -/
def str_lower (s : String) : String := ⟨s.data.map Char.toLower⟩

/-- `has_memo_in_filename` (src/main.py line 23): `'memo' in filename.lower()`. -/
def has_memo_in_filename (filename : String) : Bool :=
  contains_sub "memo".data (str_lower filename).data

/-- Accumulator pass of Python `os.path.basename`: keep the characters after
the last slash seen so far. -/
def basename_aux (acc : List Char) : List Char → List Char
  | [] => acc
  | c :: rest => if c = '/' then basename_aux [] rest else basename_aux (acc ++ [c]) rest

/-- Python `os.path.basename` for POSIX paths. -/
def basename (p : String) : String := ⟨basename_aux [] p.data⟩

/-- Python `b.startswith('/')`. -/
def starts_with_slash (b : String) : Bool :=
  match b.data with
  | c :: _ => c == '/'
  | [] => false

/-- Python `a.endswith('/')`. -/
def ends_with_slash (a : String) : Bool :=
  match a.data.getLast? with
  | some c => c == '/'
  | none => false

/-- Python `os.path.join(a, b)` for POSIX paths and two arguments. -/
def ospath_join (a b : String) : String :=
  if starts_with_slash b then b
  else if a = "" || ends_with_slash a then ⟨a.data ++ b.data⟩
  else ⟨a.data ++ '/' :: b.data⟩

/-- Kind of a remote entry, `dropbox.files.FileMetadata` vs `FolderMetadata`. -/
inductive EntryKind where
  | file
  | folder
deriving DecidableEq

/-- A remote entry as the listing returns it: kind, leaf `name`, `path_lower`. -/
structure Entry where
  kind : EntryKind
  name : String
  path_lower : String
deriving DecidableEq

/-- The `result` dict of `list_dropbox_folder`: three lists of `path_lower` strings. -/
structure FolderListing where
  memo_files : List String
  other_files : List String
  folders : List String
deriving DecidableEq

/-- What the store answers to one listing request: the successive successful
pages (`files_list_folder` and its `_continue` calls), and whether the call
that would follow the last page raises an `ApiError` instead.  `pages = []`
with `thenError = true` models the initial call failing. -/
structure ListSpec where
  pages : List (List Entry)
  thenError : Bool

/-- Outcome of `files_get_metadata` on a path, as discriminated by
`create_archive_folder`: found, path/not-found error, or any other error. -/
inductive MetaResult where
  | found
  | notFound
  | otherError

/-- The remote store and the outcomes of its mutating calls.
`store path recursive` gives the listing behaviour for that path,
`moveOk src dst` the outcome of `files_move_v2`, `metadata`/`createOk`
the outcomes of `files_get_metadata` and `files_create_folder_v2`. -/
structure Env where
  store : String → Bool → ListSpec
  moveOk : String → String → Bool
  metadata : String → MetaResult
  createOk : String → Bool

/-- A mutating API call issued to the store. -/
inductive Op where
  | moveFile (src dst : String)
  | moveFolder (src dst : String)
  | createFolder (path : String)
deriving DecidableEq

/-- A log line. -/
inductive Log where
  | info (msg : String)
  | error (msg : String)
deriving DecidableEq

/-- Mutating calls issued and log lines written, in order. -/
structure Trace where
  ops : List Op
  logs : List Log
deriving DecidableEq

/-- Result of a move helper: the Python return value plus its effects. -/
structure MoveRes where
  ok : Bool
  ops : List Op
  logs : List Log
deriving DecidableEq

/-- One iteration of the entry loops in `list_dropbox_folder`
(src/main.py lines 51-58 and 62-69): classify one entry into the result dict. -/
def add_entry (r : FolderListing) (e : Entry) : FolderListing :=
  match e.kind with
  | .file =>
    if has_memo_in_filename e.name then
      { r with memo_files := r.memo_files ++ [e.path_lower] }
    else
      { r with other_files := r.other_files ++ [e.path_lower] }
  | .folder => { r with folders := r.folders ++ [e.path_lower] }

/-- Classify a page of entries into the accumulating result dict. -/
def partition_entries (acc : FolderListing) (entries : List Entry) : FolderListing :=
  entries.foldl add_entry acc

/-- `list_dropbox_folder` (src/main.py lines 43-72): accumulate all pages the
store returns; an `ApiError` (initial or during pagination) stops accumulation
and is logged; the accumulated result is returned either way. -/
def list_dropbox_folder (env : Env) (folder_path : String) (recursive : Bool) :
    FolderListing × List Log :=
  let spec := env.store folder_path recursive
  let r := spec.pages.foldl (fun acc page => partition_entries acc page)
    { memo_files := [], other_files := [], folders := [] }
  if spec.thenError then
    (r, [Log.error ("Error listing Dropbox folder " ++ folder_path)])
  else
    (r, [])

/-- `move_dropbox_file` (src/main.py lines 74-86). -/
def move_dropbox_file (env : Env) (file_path archive_path : String) (dry_run : Bool) :
    MoveRes :=
  let new_path := ospath_join archive_path (basename file_path)
  if dry_run then
    { ok := true, ops := [],
      logs := [Log.info ("[DRY RUN] Would move file: " ++ file_path ++ " to " ++ new_path)] }
  else if env.moveOk file_path new_path then
    { ok := true, ops := [Op.moveFile file_path new_path],
      logs := [Log.info ("Moved file: " ++ file_path ++ " to " ++ new_path)] }
  else
    { ok := false, ops := [Op.moveFile file_path new_path],
      logs := [Log.error ("Error moving file " ++ file_path ++ " to " ++ new_path)] }

/-- `move_dropbox_folder` (src/main.py lines 88-100). -/
def move_dropbox_folder (env : Env) (folder_path archive_path : String) (dry_run : Bool) :
    MoveRes :=
  let new_path := ospath_join archive_path (basename folder_path)
  if dry_run then
    { ok := true, ops := [],
      logs := [Log.info ("[DRY RUN] Would move folder: " ++ folder_path ++ " to " ++ new_path)] }
  else if env.moveOk folder_path new_path then
    { ok := true, ops := [Op.moveFolder folder_path new_path],
      logs := [Log.info ("Moved folder: " ++ folder_path ++ " to " ++ new_path)] }
  else
    { ok := false, ops := [Op.moveFolder folder_path new_path],
      logs := [Log.error ("Error moving folder " ++ folder_path ++ " to " ++ new_path)] }

/-- The memo-file loop of `process_folder` (src/main.py lines 108-109):
move every memo file, ignoring the returned booleans. -/
def move_files_loop (env : Env) (files : List String) (archive_path : String)
    (dry_run : Bool) : Trace :=
  files.foldl
    (fun t f =>
      let r := move_dropbox_file env f archive_path dry_run
      { ops := t.ops ++ r.ops, logs := t.logs ++ r.logs })
    { ops := [], logs := [] }

/-- The `all_moved` loop of `process_folder` (src/main.py lines 119-122):
move every file, remembering whether all moves succeeded. -/
def move_files_all (env : Env) (files : List String) (archive_path : String)
    (dry_run : Bool) : Bool × Trace :=
  files.foldl
    (fun acc f =>
      let r := move_dropbox_file env f archive_path dry_run
      (acc.1 && r.ok, { ops := acc.2.ops ++ r.ops, logs := acc.2.logs ++ r.logs }))
    (true, { ops := [], logs := [] })

/-- The leaf condition of src/main.py lines 115-117:
exactly one memo file, no other files, no subfolders. -/
def is_archivable_leaf (sc : FolderListing) : Bool :=
  sc.memo_files.length == 1 && sc.other_files.isEmpty && sc.folders.isEmpty

/-- The body of the subfolder loop of `process_folder` (src/main.py lines
112-129): list the subfolder; if it is an archivable leaf, move its memo
file(s) and — only if all moved — the folder itself; otherwise recurse
(the recursive `process_folder` call is abstracted as `recurse`). -/
def handle_subfolder (env : Env) (recurse : String → Trace)
    (subfolder_path archive_path : String) (dry_run : Bool) : Trace :=
  let lr := list_dropbox_folder env subfolder_path false
  let sc := lr.1
  if is_archivable_leaf sc then
    let m := move_files_all env sc.memo_files archive_path dry_run
    if m.1 then
      let fr := move_dropbox_folder env subfolder_path archive_path dry_run
      { ops := m.2.ops ++ fr.ops, logs := lr.2 ++ m.2.logs ++ fr.logs }
    else
      { ops := m.2.ops,
        logs := lr.2 ++ m.2.logs ++
          [Log.info ("Could not move the memo file in " ++ subfolder_path ++
            ", skipping folder move.")] }
  else
    let t := recurse subfolder_path
    { ops := t.ops, logs := lr.2 ++ t.logs }

/-- `process_folder` (src/main.py lines 102-129), with a fuel bound on the
recursion depth (the Python recursion is unbounded; fuel 0 yields the empty
trace).  Lists the folder, moves its memo files, then handles each subfolder
in listing order, recursing with the same archive path and dry-run flag. -/
def process_folder (env : Env) : Nat → String → String → Bool → Bool → Trace
  | 0, _, _, _, _ => { ops := [], logs := [] }
  | fuel + 1, folder_path, archive_path, delete_empty_folders, dry_run =>
    let lr := list_dropbox_folder env folder_path false
    let contents := lr.1
    let tf := move_files_loop env contents.memo_files archive_path dry_run
    let subs := contents.folders.map (fun f =>
      handle_subfolder env
        (fun p => process_folder env fuel p archive_path delete_empty_folders dry_run)
        f archive_path dry_run)
    { ops := tf.ops ++ (subs.map Trace.ops).flatten,
      logs := [Log.info ("Processing folder: " ++ folder_path)] ++ lr.2 ++
        [Log.info ("Found " ++ toString contents.memo_files.length ++ " memo files, " ++
          toString contents.other_files.length ++ " other files, and " ++
          toString contents.folders.length ++ " folders.")] ++
        tf.logs ++ (subs.map Trace.logs).flatten }

/-- `create_archive_folder` (src/main.py lines 26-41).  The boolean is false
when the Python function re-raises (creation failed or the metadata check
failed with a non-not-found error). -/
def create_archive_folder (env : Env) (archive_path : String) : Bool × Trace :=
  match env.metadata archive_path with
  | .found =>
    (true, { ops := [], logs := [Log.info ("Archive folder already exists: " ++ archive_path)] })
  | .notFound =>
    if env.createOk archive_path then
      (true, { ops := [Op.createFolder archive_path],
               logs := [Log.info ("Created archive folder: " ++ archive_path)] })
    else
      (false, { ops := [Op.createFolder archive_path],
                logs := [Log.error ("Error creating archive folder " ++ archive_path)] })
  | .otherError =>
    (false, { ops := [], logs := [Log.error ("Error checking archive folder " ++ archive_path)] })

/-- The configured source roots (src/main.py lines 136-138). -/
def dropbox_folder_paths : List String := ["/path/to/shared/folder"]

/-- The configured archive path (src/main.py line 139). -/
def archive_path_const : String := "/path/to/shared/folder/Archive"

/-- `main` (src/main.py lines 131-155): ensure the archive folder exists
(aborting the run when that re-raises), then process every configured root
with `dry_run := True` as hard-coded on line 148 (`delete_empty_folders`
keeps its default `True`).  The boolean records whether the run completed. -/
def main_run (env : Env) (fuel : Nat) : Bool × Trace :=
  let c := create_archive_folder env archive_path_const
  if c.1 then
    let steps := dropbox_folder_paths.map
      (fun p => process_folder env fuel p archive_path_const true true)
    (true, { ops := c.2.ops ++ (steps.map Trace.ops).flatten,
             logs := c.2.logs ++ (steps.map Trace.logs).flatten })
  else
    (false, c.2)

/-! ### Helper lemmas about the string helpers -/

theorem list_starts_with_iff (n : List Char) : ∀ h : List Char,
    list_starts_with n h = true ↔ ∃ t, h = n ++ t := by
  induction n with
  | nil =>
    intro h
    simp [list_starts_with]
  | cons a as ih =>
    intro h
    cases h with
    | nil => simp [list_starts_with]
    | cons b bs =>
      simp only [list_starts_with, Bool.and_eq_true, beq_iff_eq, ih]
      constructor
      · rintro ⟨rfl, t, rfl⟩
        exact ⟨t, rfl⟩
      · rintro ⟨t, ht⟩
        injection ht with h1 h2
        exact ⟨h1.symm, t, h2⟩

theorem contains_sub_iff (n : List Char) : ∀ h : List Char,
    contains_sub n h = true ↔ ∃ s t, h = s ++ n ++ t := by
  intro h
  induction h with
  | nil =>
    rw [contains_sub, list_starts_with_iff]
    constructor
    · rintro ⟨t, ht⟩
      exact ⟨[], t, ht⟩
    · rintro ⟨s, t, hst⟩
      have h1 := List.append_eq_nil.mp hst.symm
      have h2 := List.append_eq_nil.mp h1.1
      exact ⟨[], by simp [h2.2]⟩
  | cons c rest ih =>
    rw [contains_sub, Bool.or_eq_true, ih, list_starts_with_iff]
    constructor
    · rintro (⟨t, ht⟩ | ⟨s, t, hst⟩)
      · exact ⟨[], t, ht⟩
      · refine ⟨c :: s, t, ?_⟩
        rw [hst]
        rfl
    · rintro ⟨s, t, hst⟩
      cases s with
      | nil => exact Or.inl ⟨t, hst⟩
      | cons c' s' =>
        simp only [List.cons_append] at hst
        injection hst with h1 h2
        exact Or.inr ⟨s', t, h2⟩

theorem basename_aux_append (x y : List Char) : ∀ acc : List Char,
    basename_aux acc (x ++ y) = basename_aux (basename_aux acc x) y := by
  induction x with
  | nil => intro acc; rfl
  | cons c cs ih =>
    intro acc
    by_cases hc : c = '/'
    · simp [basename_aux, hc, ih]
    · simp [basename_aux, hc, ih]

theorem basename_aux_no_slash (y : List Char) (h : '/' ∉ y) : ∀ acc : List Char,
    basename_aux acc y = acc ++ y := by
  induction y with
  | nil => intro acc; simp [basename_aux]
  | cons c cs ih =>
    intro acc
    have hc : ¬ c = '/' := fun hc => h (by simp [hc])
    simp only [basename_aux, if_neg hc]
    rw [ih (fun hm => h (List.mem_cons_of_mem _ hm))]
    simp

theorem no_slash_basename_aux (y : List Char) : ∀ acc : List Char, '/' ∉ acc →
    '/' ∉ basename_aux acc y := by
  induction y with
  | nil => intro acc hacc; simpa [basename_aux] using hacc
  | cons c cs ih =>
    intro acc hacc
    by_cases hc : c = '/'
    · simp only [basename_aux, if_pos hc]
      exact ih [] (by simp)
    · simp only [basename_aux, if_neg hc]
      refine ih _ ?_
      intro hm
      rcases List.mem_append.mp hm with hm | hm
      · exact hacc hm
      · exact hc (List.mem_singleton.mp hm).symm

theorem no_slash_basename (p : String) : '/' ∉ (basename p).data :=
  no_slash_basename_aux p.data [] (by simp)

theorem basename_mk_no_slash (l : List Char) (h : '/' ∉ l) :
    basename ⟨l⟩ = ⟨l⟩ := by
  show (⟨basename_aux [] l⟩ : String) = ⟨l⟩
  rw [basename_aux_no_slash l h]
  simp

theorem basename_mk_after_slash (x l : List Char) (h : '/' ∉ l) :
    basename ⟨x ++ '/' :: l⟩ = ⟨l⟩ := by
  show (⟨basename_aux [] (x ++ '/' :: l)⟩ : String) = ⟨l⟩
  rw [basename_aux_append]
  simp only [basename_aux, if_pos rfl]
  rw [basename_aux_no_slash l h]
  simp

theorem starts_with_slash_eq_false_of_no_slash (b : String) (h : '/' ∉ b.data) :
    starts_with_slash b = false := by
  cases hb : b.data with
  | nil => simp [starts_with_slash, hb]
  | cons c cs =>
    have hc : ¬ (c = '/') := fun hc => h (by rw [hb, hc]; exact List.mem_cons_self _ _)
    simp [starts_with_slash, hb]
    exact fun hcc => absurd hcc hc

theorem ends_with_slash_decomp (a : String) (h : ends_with_slash a = true) :
    ∃ init, a.data = init ++ ['/'] := by
  cases hg : a.data.getLast? with
  | none => simp [ends_with_slash, hg] at h
  | some c =>
    have hc : c = '/' := by simpa [ends_with_slash, hg] using h
    exact List.getLast?_eq_some_iff.mp (hc ▸ hg)

theorem basename_ospath_join_basename (a p : String) :
    basename (ospath_join a (basename p)) = basename p := by
  have hb : '/' ∉ (basename p).data := no_slash_basename p
  have h1 : starts_with_slash (basename p) = false :=
    starts_with_slash_eq_false_of_no_slash _ hb
  rw [ospath_join, h1]
  simp only [Bool.false_eq_true, if_false]
  by_cases ha : a = ""
  · subst ha
    have hcond : (decide (("" : String) = "") || ends_with_slash "") = true := by simp
    rw [if_pos hcond]
    have hdata : ("" : String).data = [] := rfl
    rw [hdata, List.nil_append]
    exact basename_mk_no_slash _ hb
  · by_cases he : ends_with_slash a = true
    · obtain ⟨init, hinit⟩ := ends_with_slash_decomp a he
      have hcond : (decide (a = "") || ends_with_slash a) = true := by
        simp [he]
      rw [if_pos hcond, hinit]
      have : (init ++ ['/']) ++ (basename p).data = init ++ '/' :: (basename p).data := by
        simp
      rw [this]
      exact basename_mk_after_slash _ _ hb
    · have hcond : ¬ ((decide (a = "") || ends_with_slash a) = true) := by
        simp [ha, he]
      rw [if_neg hcond]
      exact basename_mk_after_slash _ _ hb

/-! ### Partition helper lemmas -/

/-- An entry that `list_dropbox_folder` would put into `memo_files`. -/
def is_memo_file_entry (e : Entry) : Bool :=
  match e.kind with
  | .file => has_memo_in_filename e.name
  | .folder => false

/-- An entry that `list_dropbox_folder` would put into `other_files`. -/
def is_other_file_entry (e : Entry) : Bool :=
  match e.kind with
  | .file => !(has_memo_in_filename e.name)
  | .folder => false

/-- An entry that `list_dropbox_folder` would put into `folders`. -/
def is_subfolder_entry (e : Entry) : Bool :=
  match e.kind with
  | .file => false
  | .folder => true

theorem partition_entries_eq (l : List Entry) : ∀ acc : FolderListing,
    partition_entries acc l =
      { memo_files := acc.memo_files ++ (l.filter is_memo_file_entry).map Entry.path_lower,
        other_files := acc.other_files ++ (l.filter is_other_file_entry).map Entry.path_lower,
        folders := acc.folders ++ (l.filter is_subfolder_entry).map Entry.path_lower } := by
  induction l with
  | nil => intro acc; simp [partition_entries]
  | cons e l ih =>
    intro acc
    have hstep : partition_entries acc (e :: l) = partition_entries (add_entry acc e) l := rfl
    rw [hstep, ih]
    cases he : e.kind with
    | file =>
      by_cases hm : has_memo_in_filename e.name = true
      · simp [add_entry, he, hm, is_memo_file_entry, is_other_file_entry, is_subfolder_entry,
          List.filter_cons]
      · simp [add_entry, he, hm, is_memo_file_entry, is_other_file_entry, is_subfolder_entry,
          List.filter_cons]
    | folder =>
      simp [add_entry, he, is_memo_file_entry, is_other_file_entry, is_subfolder_entry,
        List.filter_cons]

theorem filter_three_length (l : List Entry) :
    (l.filter is_memo_file_entry).length + (l.filter is_other_file_entry).length +
      (l.filter is_subfolder_entry).length = l.length := by
  induction l with
  | nil => rfl
  | cons e l ih =>
    cases he : e.kind with
    | file =>
      by_cases hm : has_memo_in_filename e.name = true
      · simp [is_memo_file_entry, is_other_file_entry, is_subfolder_entry, he, hm,
          List.filter_cons]
        omega
      · simp [is_memo_file_entry, is_other_file_entry, is_subfolder_entry, he, hm,
          List.filter_cons]
        omega
    | folder =>
      simp [is_memo_file_entry, is_other_file_entry, is_subfolder_entry, he, List.filter_cons]
      omega

theorem foldl_partition_pages (pages : List (List Entry)) : ∀ acc : FolderListing,
    pages.foldl (fun acc page => partition_entries acc page) acc =
      partition_entries acc pages.flatten := by
  induction pages with
  | nil => intro acc; rfl
  | cons p ps ih =>
    intro acc
    rw [List.foldl_cons, ih, List.flatten_cons]
    show partition_entries (partition_entries acc p) ps.flatten =
      partition_entries acc (p ++ ps.flatten)
    rw [partition_entries, partition_entries, partition_entries, List.foldl_append]

theorem list_dropbox_folder_fst (env : Env) (p : String) (r : Bool) :
    (list_dropbox_folder env p r).1 =
      partition_entries { memo_files := [], other_files := [], folders := [] }
        (env.store p r).pages.flatten := by
  rw [list_dropbox_folder]
  cases hte : (env.store p r).thenError <;> simp [hte, foldl_partition_pages]

/-! ### Claim theorems: memo classifier, move destinations, partition -/

/-- Claim C5: for every file name, the memo classifier returns true iff the
lowercase form of the name contains "memo" as a substring; in particular
"Memo1.txt" and "memorandum.pdf" classify true and "report.txt" false. -/
theorem memo_classifier_iff_lower_contains_memo :
    (∀ name : String, has_memo_in_filename name = true ↔
      ∃ s t, (str_lower name).data = s ++ "memo".data ++ t) ∧
    has_memo_in_filename "Memo1.txt" = true ∧
    has_memo_in_filename "memorandum.pdf" = true ∧
    has_memo_in_filename "report.txt" = false :=
  ⟨fun name => contains_sub_iff "memo".data (str_lower name).data,
   by decide, by decide, by decide⟩

/-- Claim C6: every move (file or folder, identically) targets the archive
path joined with the source's leaf name, so the move preserves the leaf name:
outside dry-run both movers issue exactly one move call whose destination is
`ospath_join archive (basename src)`, whose leaf name is `basename src`. -/
theorem move_destination_preserves_leaf_name (env : Env) (src archive_path : String)
    (dry_run : Bool) :
    (move_dropbox_file env src archive_path dry_run).ops =
      (if dry_run then []
       else [Op.moveFile src (ospath_join archive_path (basename src))]) ∧
    (move_dropbox_folder env src archive_path dry_run).ops =
      (if dry_run then []
       else [Op.moveFolder src (ospath_join archive_path (basename src))]) ∧
    basename (ospath_join archive_path (basename src)) = basename src := by
  refine ⟨?_, ?_, basename_ospath_join_basename _ _⟩
  · rw [move_dropbox_file]
    by_cases hd : dry_run = true
    · simp [hd]
    · simp only [Bool.not_eq_true] at hd
      by_cases hm : env.moveOk src (ospath_join archive_path (basename src)) = true
      · simp [hd, hm]
      · simp only [Bool.not_eq_true] at hm
        simp [hd, hm]
  · rw [move_dropbox_folder]
    by_cases hd : dry_run = true
    · simp [hd]
    · simp only [Bool.not_eq_true] at hd
      by_cases hm : env.moveOk src (ospath_join archive_path (basename src)) = true
      · simp [hd, hm]
      · simp only [Bool.not_eq_true] at hm
        simp [hd, hm]

/-- Claim C7: for every successful folder listing the three-way partition is
exhaustive and disjoint: each sequence consists exactly of the children of
its class (in listing order), and the three lengths sum to the total number
of children returned by the store. -/
theorem listing_partition_exhaustive_disjoint (env : Env) (p : String) (r : Bool)
    (h : (env.store p r).thenError = false) :
    (list_dropbox_folder env p r).1.memo_files =
      ((env.store p r).pages.flatten.filter is_memo_file_entry).map Entry.path_lower ∧
    (list_dropbox_folder env p r).1.other_files =
      ((env.store p r).pages.flatten.filter is_other_file_entry).map Entry.path_lower ∧
    (list_dropbox_folder env p r).1.folders =
      ((env.store p r).pages.flatten.filter is_subfolder_entry).map Entry.path_lower ∧
    (list_dropbox_folder env p r).1.memo_files.length +
      (list_dropbox_folder env p r).1.other_files.length +
      (list_dropbox_folder env p r).1.folders.length =
      (env.store p r).pages.flatten.length := by
  rw [list_dropbox_folder_fst, partition_entries_eq]
  refine ⟨by simp, by simp, by simp, ?_⟩
  simp only [List.nil_append, List.length_map]
  exact filter_three_length _

/-- Concrete store used by the witness of claim C7. -/
def envListW : Env where
  store := fun p _ =>
    if p = "/w" then
      { pages := [[⟨.file, "memo_a.txt", "/w/memo_a.txt"⟩, ⟨.file, "report.txt", "/w/report.txt"⟩],
                  [⟨.folder, "sub", "/w/sub"⟩]],
        thenError := false }
    else { pages := [], thenError := false }
  moveOk := fun _ _ => true
  metadata := fun _ => .found
  createOk := fun _ => true

/-- Witness for claim C7 at a concrete two-page listing. -/
theorem listing_partition_exhaustive_disjoint_witness :
    (list_dropbox_folder envListW "/w" false).1.memo_files.length +
      (list_dropbox_folder envListW "/w" false).1.other_files.length +
      (list_dropbox_folder envListW "/w" false).1.folders.length =
      (envListW.store "/w" false).pages.flatten.length :=
  (listing_partition_exhaustive_disjoint envListW "/w" false (by decide)).2.2.2

/-! ### Characterization lemmas for the traversal engine -/

theorem move_files_foldl (env : Env) (ap : String) (dr : Bool) (files : List String) :
    ∀ t : Trace,
    files.foldl
      (fun t f =>
        let r := move_dropbox_file env f ap dr
        { ops := t.ops ++ r.ops, logs := t.logs ++ r.logs }) t =
      { ops := t.ops ++ (files.map fun f => (move_dropbox_file env f ap dr).ops).flatten,
        logs := t.logs ++ (files.map fun f => (move_dropbox_file env f ap dr).logs).flatten } := by
  induction files with
  | nil => intro t; simp
  | cons f fs ih =>
    intro t
    rw [List.foldl_cons, ih]
    simp

theorem move_files_loop_eq (env : Env) (files : List String) (ap : String) (dr : Bool) :
    move_files_loop env files ap dr =
      { ops := (files.map fun f => (move_dropbox_file env f ap dr).ops).flatten,
        logs := (files.map fun f => (move_dropbox_file env f ap dr).logs).flatten } := by
  rw [move_files_loop, move_files_foldl]
  simp

theorem move_files_all_foldl (env : Env) (ap : String) (dr : Bool) (files : List String) :
    ∀ b : Bool, ∀ t : Trace,
    files.foldl
      (fun acc f =>
        let r := move_dropbox_file env f ap dr
        (acc.1 && r.ok, { ops := acc.2.ops ++ r.ops, logs := acc.2.logs ++ r.logs })) (b, t) =
      (b && files.all (fun f => (move_dropbox_file env f ap dr).ok),
       { ops := t.ops ++ (files.map fun f => (move_dropbox_file env f ap dr).ops).flatten,
         logs := t.logs ++ (files.map fun f => (move_dropbox_file env f ap dr).logs).flatten }) := by
  induction files with
  | nil => intro b t; simp
  | cons f fs ih =>
    intro b t
    rw [List.foldl_cons, ih]
    simp [Bool.and_assoc]

theorem move_files_all_eq (env : Env) (files : List String) (ap : String) (dr : Bool) :
    move_files_all env files ap dr =
      (files.all (fun f => (move_dropbox_file env f ap dr).ok),
       { ops := (files.map fun f => (move_dropbox_file env f ap dr).ops).flatten,
         logs := (files.map fun f => (move_dropbox_file env f ap dr).logs).flatten }) := by
  rw [move_files_all, move_files_all_foldl]
  simp

theorem process_folder_succ (env : Env) (fuel : Nat) (fp ap : String) (defe dr : Bool) :
    process_folder env (fuel + 1) fp ap defe dr =
      { ops := (move_files_loop env (list_dropbox_folder env fp false).1.memo_files ap dr).ops ++
          ((list_dropbox_folder env fp false).1.folders.map (fun f =>
            (handle_subfolder env (fun p => process_folder env fuel p ap defe dr)
              f ap dr).ops)).flatten,
        logs := [Log.info ("Processing folder: " ++ fp)] ++
          (list_dropbox_folder env fp false).2 ++
          [Log.info ("Found " ++ toString (list_dropbox_folder env fp false).1.memo_files.length ++
            " memo files, " ++ toString (list_dropbox_folder env fp false).1.other_files.length ++
            " other files, and " ++ toString (list_dropbox_folder env fp false).1.folders.length ++
            " folders.")] ++
          (move_files_loop env (list_dropbox_folder env fp false).1.memo_files ap dr).logs ++
          ((list_dropbox_folder env fp false).1.folders.map (fun f =>
            (handle_subfolder env (fun p => process_folder env fuel p ap defe dr)
              f ap dr).logs)).flatten } := by
  rw [process_folder]
  simp only [List.map_map]
  rfl

theorem handle_subfolder_leaf (env : Env) (recurse : String → Trace) (sp ap : String)
    (dr : Bool) (m : String)
    (h1 : (list_dropbox_folder env sp false).1.memo_files = [m])
    (h2 : (list_dropbox_folder env sp false).1.other_files = [])
    (h3 : (list_dropbox_folder env sp false).1.folders = []) :
    handle_subfolder env recurse sp ap dr =
      (if (move_dropbox_file env m ap dr).ok then
        { ops := (move_dropbox_file env m ap dr).ops ++ (move_dropbox_folder env sp ap dr).ops,
          logs := (list_dropbox_folder env sp false).2 ++ (move_dropbox_file env m ap dr).logs ++
            (move_dropbox_folder env sp ap dr).logs }
      else
        { ops := (move_dropbox_file env m ap dr).ops,
          logs := (list_dropbox_folder env sp false).2 ++ (move_dropbox_file env m ap dr).logs ++
            [Log.info ("Could not move the memo file in " ++ sp ++
              ", skipping folder move.")] }) := by
  have hleaf : is_archivable_leaf (list_dropbox_folder env sp false).1 = true := by
    rw [is_archivable_leaf, h1, h2, h3]
    rfl
  rw [handle_subfolder]
  simp only [hleaf, if_true, h1, move_files_all_eq]
  cases hok : (move_dropbox_file env m ap dr).ok <;> simp [hok]

theorem handle_subfolder_not_leaf (env : Env) (recurse : String → Trace) (sp ap : String)
    (dr : Bool)
    (h : is_archivable_leaf (list_dropbox_folder env sp false).1 = false) :
    handle_subfolder env recurse sp ap dr =
      { ops := (recurse sp).ops,
        logs := (list_dropbox_folder env sp false).2 ++ (recurse sp).logs } := by
  rw [handle_subfolder]
  simp [h]

/-- Witness for claim C5 at the concrete names of the claim. -/
theorem memo_classifier_iff_lower_contains_memo_witness :
    has_memo_in_filename "Memo1.txt" = true ∧ has_memo_in_filename "report.txt" = false :=
  ⟨memo_classifier_iff_lower_contains_memo.2.1,
   memo_classifier_iff_lower_contains_memo.2.2.2⟩

/-! ### Claim theorems: traversal ordering, leaf-archive rule, failure handling -/

/-- Claim C8: within any one folder, every memo file of the folder's own
listing has its move attempted before any subfolder is evaluated (the memo
move trace is a prefix of the folder's trace), and subfolders are evaluated
in the order the store's listing returned them (the subfolder traces are
concatenated in listing order). -/
theorem memo_moves_before_subfolder_evaluation (env : Env) (fuel : Nat) (fp ap : String)
    (defe dr : Bool) :
    (process_folder env (fuel + 1) fp ap defe dr).ops =
      (move_files_loop env (list_dropbox_folder env fp false).1.memo_files ap dr).ops ++
        ((list_dropbox_folder env fp false).1.folders.map (fun f =>
          (handle_subfolder env (fun p => process_folder env fuel p ap defe dr)
            f ap dr).ops)).flatten ∧
    (process_folder env (fuel + 1) fp ap defe dr).logs =
      [Log.info ("Processing folder: " ++ fp)] ++
        (list_dropbox_folder env fp false).2 ++
        [Log.info ("Found " ++ toString (list_dropbox_folder env fp false).1.memo_files.length ++
          " memo files, " ++ toString (list_dropbox_folder env fp false).1.other_files.length ++
          " other files, and " ++ toString (list_dropbox_folder env fp false).1.folders.length ++
          " folders.")] ++
        (move_files_loop env (list_dropbox_folder env fp false).1.memo_files ap dr).logs ++
        ((list_dropbox_folder env fp false).1.folders.map (fun f =>
          (handle_subfolder env (fun p => process_folder env fuel p ap defe dr)
            f ap dr).logs)).flatten := by
  rw [process_folder_succ]
  exact ⟨rfl, rfl⟩

/-- Claim C1: for every subfolder encountered during `process_folder`, the
leaf-archive rule fires iff the subfolder's listing has exactly one memo
file, zero other files and zero subfolders — in that case its single memo
file is moved and the folder itself is moved only afterwards (and only if
the file move succeeded); for every other composition the engine instead
recurses into the subfolder with the same archive path and dry-run flag. -/
theorem leaf_archive_rule_iff (env : Env) (fuel : Nat) (sp ap : String) (defe dr : Bool) :
    (∀ m : String,
      (list_dropbox_folder env sp false).1.memo_files = [m] →
      (list_dropbox_folder env sp false).1.other_files = [] →
      (list_dropbox_folder env sp false).1.folders = [] →
      handle_subfolder env (fun p => process_folder env fuel p ap defe dr) sp ap dr =
        (if (move_dropbox_file env m ap dr).ok then
          { ops := (move_dropbox_file env m ap dr).ops ++ (move_dropbox_folder env sp ap dr).ops,
            logs := (list_dropbox_folder env sp false).2 ++
              (move_dropbox_file env m ap dr).logs ++ (move_dropbox_folder env sp ap dr).logs }
        else
          { ops := (move_dropbox_file env m ap dr).ops,
            logs := (list_dropbox_folder env sp false).2 ++
              (move_dropbox_file env m ap dr).logs ++
              [Log.info ("Could not move the memo file in " ++ sp ++
                ", skipping folder move.")] })) ∧
    (is_archivable_leaf (list_dropbox_folder env sp false).1 = false →
      handle_subfolder env (fun p => process_folder env fuel p ap defe dr) sp ap dr =
        { ops := (process_folder env fuel sp ap defe dr).ops,
          logs := (list_dropbox_folder env sp false).2 ++
            (process_folder env fuel sp ap defe dr).logs }) :=
  ⟨fun m h1 h2 h3 => handle_subfolder_leaf env _ sp ap dr m h1 h2 h3,
   fun h => handle_subfolder_not_leaf env _ sp ap dr h⟩

/-- Concrete store used by the witnesses of claims C1 and C3: `/r` contains
the single subfolder `/r/x`, which contains exactly one memo file. -/
def envLeafW : Env where
  store := fun p _ =>
    if p = "/r" then
      { pages := [[⟨.folder, "x", "/r/x"⟩]], thenError := false }
    else if p = "/r/x" then
      { pages := [[⟨.file, "memo_feb.txt", "/r/x/memo_feb.txt"⟩]], thenError := false }
    else { pages := [], thenError := false }
  moveOk := fun _ _ => true
  metadata := fun _ => .found
  createOk := fun _ => true

/-- Witness for claim C1: on the concrete leaf subfolder `/r/x` the rule
fires and moves the memo file and then the folder. -/
theorem leaf_archive_rule_iff_witness :
    (list_dropbox_folder envLeafW "/r/x" false).1.memo_files = ["/r/x/memo_feb.txt"] ∧
    (handle_subfolder envLeafW (fun p => process_folder envLeafW 0 p "/Archive" true false)
        "/r/x" "/Archive" false).ops =
      [Op.moveFile "/r/x/memo_feb.txt" "/Archive/memo_feb.txt",
       Op.moveFolder "/r/x" "/Archive/x"] := by
  have h := (leaf_archive_rule_iff envLeafW 0 "/r/x" "/Archive" true false).1
    "/r/x/memo_feb.txt" (by decide) (by decide) (by decide)
  refine ⟨by decide, ?_⟩
  rw [h]
  decide

/-- Concrete store used by the witness of claim C3: like `envLeafW` but the
single memo-file move fails. -/
def envFailW : Env where
  store := fun p _ =>
    if p = "/r" then
      { pages := [[⟨.folder, "x", "/r/x"⟩]], thenError := false }
    else if p = "/r/x" then
      { pages := [[⟨.file, "memo_feb.txt", "/r/x/memo_feb.txt"⟩]], thenError := false }
    else { pages := [], thenError := false }
  moveOk := fun _ _ => false
  metadata := fun _ => .found
  createOk := fun _ => true

/-- Claim C3: for an archivable-leaf subfolder whose single memo-file move
fails, the folder move is never attempted (zero folder-move calls in that
branch), the failure and the skip are logged, and the remaining subfolders
of the parent are still traversed after it. -/
theorem leaf_file_move_failure_skips_folder_move (env : Env) (fuel : Nat)
    (sp ap : String) (defe : Bool) (m : String)
    (hlist : (list_dropbox_folder env sp false).1 =
      { memo_files := [m], other_files := [], folders := [] })
    (hfail : env.moveOk m (ospath_join ap (basename m)) = false) :
    (handle_subfolder env (fun p => process_folder env fuel p ap defe false)
        sp ap false).ops =
      [Op.moveFile m (ospath_join ap (basename m))] ∧
    ((handle_subfolder env (fun p => process_folder env fuel p ap defe false)
        sp ap false).ops.countP
      (fun o => match o with | Op.moveFolder _ _ => true | _ => false)) = 0 ∧
    (handle_subfolder env (fun p => process_folder env fuel p ap defe false)
        sp ap false).logs =
      (list_dropbox_folder env sp false).2 ++
        [Log.error ("Error moving file " ++ m ++ " to " ++ ospath_join ap (basename m)),
         Log.info ("Could not move the memo file in " ++ sp ++ ", skipping folder move.")] ∧
    (∀ fp rest, (list_dropbox_folder env fp false).1.folders = sp :: rest →
      (process_folder env (fuel + 1) fp ap defe false).ops =
        (move_files_loop env (list_dropbox_folder env fp false).1.memo_files ap false).ops ++
          (handle_subfolder env (fun p => process_folder env fuel p ap defe false)
            sp ap false).ops ++
          (rest.map (fun f => (handle_subfolder env
            (fun p => process_folder env fuel p ap defe false) f ap false).ops)).flatten) := by
  have h1 : (list_dropbox_folder env sp false).1.memo_files = [m] := by rw [hlist]
  have h2 : (list_dropbox_folder env sp false).1.other_files = [] := by rw [hlist]
  have h3 : (list_dropbox_folder env sp false).1.folders = [] := by rw [hlist]
  have hmr : move_dropbox_file env m ap false =
      { ok := false, ops := [Op.moveFile m (ospath_join ap (basename m))],
        logs := [Log.error ("Error moving file " ++ m ++ " to " ++
          ospath_join ap (basename m))] } := by
    rw [move_dropbox_file]
    simp [hfail]
  have hh := handle_subfolder_leaf env
    (fun p => process_folder env fuel p ap defe false) sp ap false m h1 h2 h3
  rw [hmr] at hh
  simp only [Bool.false_eq_true, if_false] at hh
  refine ⟨by rw [hh], by rw [hh]; rfl, by rw [hh]; simp, ?_⟩
  intro fp rest hfp
  rw [process_folder_succ]
  simp only [hfp, List.map_cons, List.flatten_cons, List.append_assoc]

/-- Witness for claim C3: on the concrete failing leaf subfolder `/r/x`
the single file-move call is the only operation and no folder move occurs. -/
theorem leaf_file_move_failure_skips_folder_move_witness :
    (handle_subfolder envFailW (fun p => process_folder envFailW 0 p "/Archive" true false)
        "/r/x" "/Archive" false).ops =
      [Op.moveFile "/r/x/memo_feb.txt" "/Archive/memo_feb.txt"] ∧
    ((handle_subfolder envFailW (fun p => process_folder envFailW 0 p "/Archive" true false)
        "/r/x" "/Archive" false).ops.countP
      (fun o => match o with | Op.moveFolder _ _ => true | _ => false)) = 0 := by
  have h := leaf_file_move_failure_skips_folder_move envFailW 0 "/r/x" "/Archive" true
    "/r/x/memo_feb.txt" (by decide) (by decide)
  refine ⟨?_, h.2.1⟩
  rw [h.1]
  decide

/-! ### Dry-run lemmas and claim C2 -/

theorem move_dropbox_file_ops_dry (env : Env) (f ap : String) :
    (move_dropbox_file env f ap true).ops = [] := rfl

theorem move_dropbox_folder_ops_dry (env : Env) (f ap : String) :
    (move_dropbox_folder env f ap true).ops = [] := rfl

theorem handle_subfolder_ops_dry (env : Env) (recurse : String → Trace) (sp ap : String)
    (hr : (recurse sp).ops = []) :
    (handle_subfolder env recurse sp ap true).ops = [] := by
  cases hleaf : is_archivable_leaf (list_dropbox_folder env sp false).1 with
  | false =>
    rw [handle_subfolder_not_leaf env recurse sp ap true hleaf]
    exact hr
  | true =>
    rw [handle_subfolder]
    simp only [hleaf, if_true, move_files_all_eq]
    have hf : (((list_dropbox_folder env sp false).1.memo_files.map
        fun f => (move_dropbox_file env f ap true).ops)).flatten = ([] : List Op) := by
      simp [move_dropbox_file_ops_dry]
    cases hall : (list_dropbox_folder env sp false).1.memo_files.all
        (fun f => (move_dropbox_file env f ap true).ok) <;>
      simp [hall, hf, move_dropbox_folder_ops_dry]

theorem process_folder_ops_dry (env : Env) : ∀ (fuel : Nat) (fp ap : String) (defe : Bool),
    (process_folder env fuel fp ap defe true).ops = [] := by
  intro fuel
  induction fuel with
  | zero => intro fp ap defe; rfl
  | succ n ih =>
    intro fp ap defe
    have h1 : (move_files_loop env (list_dropbox_folder env fp false).1.memo_files
        ap true).ops = [] := by
      rw [move_files_loop_eq]
      simp [move_dropbox_file_ops_dry]
    have h2 : ∀ f, (handle_subfolder env
        (fun p => process_folder env n p ap defe true) f ap true).ops = [] :=
      fun f => handle_subfolder_ops_dry env _ f ap (ih f ap defe)
    rw [process_folder_succ]
    simp [h1, h2]

/-- Amended claim C2: in dry-run mode the traversal engine issues no store
operation at all — `process_folder` with `dry_run = true` produces an empty
operation list — and consequently a whole run (whose traversal is dry)
issues at most archive-folder creation operations; the archive-folder
creation in the run setup happens regardless of the dry-run flag. -/
theorem dry_run_traversal_issues_no_store_ops :
    (∀ (env : Env) (fuel : Nat) (fp ap : String) (defe : Bool),
      (process_folder env fuel fp ap defe true).ops = []) ∧
    (∀ (env : Env) (fuel : Nat),
      ((main_run env fuel).2.ops.all
        (fun o => match o with | Op.createFolder _ => true | _ => false)) = true) := by
  refine ⟨fun env fuel fp ap defe => process_folder_ops_dry env fuel fp ap defe, ?_⟩
  intro env fuel
  have hstep := process_folder_ops_dry env fuel "/path/to/shared/folder" archive_path_const true
  rw [main_run]
  cases hmeta : env.metadata archive_path_const with
  | found => simp [create_archive_folder, hmeta, dropbox_folder_paths, hstep]
  | notFound =>
    cases hc : env.createOk archive_path_const with
    | false => simp [create_archive_folder, hmeta, hc, dropbox_folder_paths, hstep]
    | true => simp [create_archive_folder, hmeta, hc, dropbox_folder_paths, hstep]
  | otherError => simp [create_archive_folder, hmeta, dropbox_folder_paths, hstep]

/-- Store used by the counterexample of claim C2: the archive folder does
not exist yet, so the (dry) run's setup creates it. -/
def envDryCreateW : Env where
  store := fun _ _ => { pages := [], thenError := false }
  moveOk := fun _ _ => true
  metadata := fun _ => .notFound
  createOk := fun _ => true

/-- Counterexample to claim C2 as stated: `main` runs with the hard-coded
`dry_run = True`, yet when the archive folder is absent the run-setup
`create_archive_folder` issues a mutating folder-creation call to the store. -/
theorem dry_run_create_reaches_store_counterexample :
    Op.createFolder archive_path_const ∈ (main_run envDryCreateW 1).2.ops := by
  decide

/-! ### Claim C4: listing failure -/

/-- Amended claim C4: when a listing fails with a store error, the error is
logged and `list_dropbox_folder` returns the partition of exactly the
entries accumulated from the pages already received before the error — which
is the empty partition when the failure strikes the initial call (no page
received), but keeps the earlier pages' entries when pagination had begun. -/
theorem listing_failure_returns_accumulated_partition (env : Env) (p : String) (r : Bool)
    (h : (env.store p r).thenError = true) :
    list_dropbox_folder env p r =
      (partition_entries { memo_files := [], other_files := [], folders := [] }
        (env.store p r).pages.flatten,
       [Log.error ("Error listing Dropbox folder " ++ p)]) ∧
    ((env.store p r).pages = [] →
      (list_dropbox_folder env p r).1 =
        { memo_files := [], other_files := [], folders := [] }) ∧
    (∀ (fuel : Nat) (fp ap : String) (defe dr : Bool) (rest : List String),
      (list_dropbox_folder env fp false).1.folders = p :: rest →
      (process_folder env (fuel + 1) fp ap defe dr).ops =
        (move_files_loop env (list_dropbox_folder env fp false).1.memo_files ap dr).ops ++
          (handle_subfolder env (fun q => process_folder env fuel q ap defe dr) p ap dr).ops ++
          (rest.map (fun f => (handle_subfolder env
            (fun q => process_folder env fuel q ap defe dr) f ap dr).ops)).flatten) := by
  refine ⟨?_, ?_, ?_⟩
  · rw [list_dropbox_folder]
    simp [h, foldl_partition_pages]
  · intro hp
    rw [list_dropbox_folder_fst, hp]
    rfl
  · intro fuel fp ap defe dr rest hfp
    rw [process_folder_succ]
    simp only [hfp, List.map_cons, List.flatten_cons, List.append_assoc]

/-- Store used against claim C4: listing `/z` returns one page with a memo
file and then fails during pagination. -/
def envPageFailW : Env where
  store := fun p _ =>
    if p = "/z" then
      { pages := [[⟨.file, "memo.txt", "/z/memo.txt"⟩]], thenError := true }
    else { pages := [], thenError := false }
  moveOk := fun _ _ => true
  metadata := fun _ => .found
  createOk := fun _ => true

/-- Counterexample to claim C4 as stated: a listing that fails after
pagination has begun does not return an empty partition — the memo file from
the already-received page is kept. -/
theorem listing_failure_empty_partition_counterexample :
    (envPageFailW.store "/z" false).thenError = true ∧
    (list_dropbox_folder envPageFailW "/z" false).1.memo_files = ["/z/memo.txt"] ∧
    (list_dropbox_folder envPageFailW "/z" false).1 ≠
      { memo_files := [], other_files := [], folders := [] } :=
  ⟨by decide, by decide, by decide⟩

/-- Witness for the amended claim C4 at the concrete failing store. -/
theorem listing_failure_returns_accumulated_partition_witness :
    list_dropbox_folder envPageFailW "/z" false =
      (partition_entries { memo_files := [], other_files := [], folders := [] }
        (envPageFailW.store "/z" false).pages.flatten,
       [Log.error ("Error listing Dropbox folder " ++ "/z")]) :=
  (listing_failure_returns_accumulated_partition envPageFailW "/z" false (by decide)).1

/-! ### Claim C9: the delete_empty_folders parameter is never read -/

/-- Claim C9: the `delete_empty_folders` parameter of `process_folder` has no
effect: two runs differing only in its value produce identical traces
(identical store operations and identical log decisions). -/
theorem delete_empty_folders_has_no_effect (env : Env) (fuel : Nat) :
    ∀ (fp ap : String) (dr d1 d2 : Bool),
    process_folder env fuel fp ap d1 dr = process_folder env fuel fp ap d2 dr := by
  induction fuel with
  | zero => intro fp ap dr d1 d2; rfl
  | succ n ih =>
    intro fp ap dr d1 d2
    rw [process_folder_succ, process_folder_succ]
    have hrec : (fun p => process_folder env n p ap d1 dr) =
        (fun p => process_folder env n p ap d2 dr) :=
      funext fun p => ih p ap dr d1 d2
    rw [hrec]

/-! ### Claim C10: the root folder is never moved -/

theorem move_dropbox_file_ops_elem (env : Env) (f ap : String) (dr : Bool) (o : Op)
    (h : o ∈ (move_dropbox_file env f ap dr).ops) :
    o = Op.moveFile f (ospath_join ap (basename f)) := by
  rw [move_dropbox_file] at h
  by_cases hd : dr = true
  · simp [hd] at h
  · simp only [Bool.not_eq_true] at hd
    by_cases hm : env.moveOk f (ospath_join ap (basename f)) = true
    · simp [hd, hm] at h
      exact h
    · simp only [Bool.not_eq_true] at hm
      simp [hd, hm] at h
      exact h

theorem move_dropbox_folder_ops_elem (env : Env) (f ap : String) (dr : Bool) (o : Op)
    (h : o ∈ (move_dropbox_folder env f ap dr).ops) :
    o = Op.moveFolder f (ospath_join ap (basename f)) := by
  rw [move_dropbox_folder] at h
  by_cases hd : dr = true
  · simp [hd] at h
  · simp only [Bool.not_eq_true] at hd
    by_cases hm : env.moveOk f (ospath_join ap (basename f)) = true
    · simp [hd, hm] at h
      exact h
    · simp only [Bool.not_eq_true] at hm
      simp [hd, hm] at h
      exact h

theorem flatten_file_ops_elem (env : Env) (files : List String) (ap : String) (dr : Bool)
    (o : Op) (h : o ∈ ((files.map fun f => (move_dropbox_file env f ap dr).ops)).flatten) :
    ∃ a b, o = Op.moveFile a b := by
  simp only [List.mem_flatten, List.mem_map] at h
  obtain ⟨l, ⟨f, hf, hl⟩, hmem⟩ := h
  subst hl
  exact ⟨f, _, move_dropbox_file_ops_elem env f ap dr o hmem⟩

theorem move_files_loop_ops_moveFile (env : Env) (files : List String) (ap : String)
    (dr : Bool) (o : Op) (h : o ∈ (move_files_loop env files ap dr).ops) :
    ∃ a b, o = Op.moveFile a b := by
  rw [move_files_loop_eq] at h
  exact flatten_file_ops_elem env files ap dr o h

theorem handle_subfolder_moveFolder_mem (env : Env) (recurse : String → Trace)
    (sp ap : String) (dr : Bool) (s d : String)
    (h : Op.moveFolder s d ∈ (handle_subfolder env recurse sp ap dr).ops) :
    (s = sp ∧ is_archivable_leaf (list_dropbox_folder env sp false).1 = true) ∨
    Op.moveFolder s d ∈ (recurse sp).ops := by
  cases hleaf : is_archivable_leaf (list_dropbox_folder env sp false).1 with
  | false =>
    rw [handle_subfolder_not_leaf env recurse sp ap dr hleaf] at h
    exact Or.inr h
  | true =>
    rw [handle_subfolder] at h
    simp only [hleaf, if_true, move_files_all_eq] at h
    cases hall : ((list_dropbox_folder env sp false).1.memo_files.all
        fun f => (move_dropbox_file env f ap dr).ok) with
    | true =>
      simp only [hall, if_true] at h
      rcases List.mem_append.mp h with h | h
      · obtain ⟨a, b, hab⟩ := flatten_file_ops_elem env _ ap dr _ h
        exact Op.noConfusion hab
      · have he := move_dropbox_folder_ops_elem env sp ap dr _ h
        injection he with h1 h2
        exact Or.inl ⟨h1, rfl⟩
    | false =>
      simp only [hall, Bool.false_eq_true, if_false] at h
      obtain ⟨a, b, hab⟩ := flatten_file_ops_elem env _ ap dr _ h
      exact Op.noConfusion hab

theorem process_folder_moveFolder_leaf (env : Env) (ap : String) (defe dr : Bool) :
    ∀ (fuel : Nat) (fp s d : String),
    Op.moveFolder s d ∈ (process_folder env fuel fp ap defe dr).ops →
    is_archivable_leaf (list_dropbox_folder env s false).1 = true := by
  intro fuel
  induction fuel with
  | zero =>
    intro fp s d h
    exact absurd h (by simp [process_folder])
  | succ n ih =>
    intro fp s d h
    rw [process_folder_succ] at h
    rcases List.mem_append.mp h with h | h
    · obtain ⟨a, b, hab⟩ := move_files_loop_ops_moveFile env _ ap dr _ h
      exact Op.noConfusion hab
    · rw [List.mem_flatten] at h
      obtain ⟨l, hl, hmem⟩ := h
      rw [List.mem_map] at hl
      obtain ⟨f, hf, hfl⟩ := hl
      subst hfl
      rcases handle_subfolder_moveFolder_mem env _ f ap dr s d hmem with ⟨hs, hleaf⟩ | hrec
      · subst hs
        exact hleaf
      · exact ih f s d hrec

theorem is_archivable_leaf_folders_nil {sc : FolderListing}
    (h : is_archivable_leaf sc = true) : sc.folders = [] := by
  rw [is_archivable_leaf] at h
  simp only [Bool.and_eq_true] at h
  exact List.isEmpty_iff.mp h.2

theorem process_folder_of_leaf_ops (env : Env) (fuel : Nat) (fp ap : String) (defe dr : Bool)
    (h : is_archivable_leaf (list_dropbox_folder env fp false).1 = true) (o : Op)
    (ho : o ∈ (process_folder env fuel fp ap defe dr).ops) :
    ∃ a b, o = Op.moveFile a b := by
  cases fuel with
  | zero => exact absurd ho (by simp [process_folder])
  | succ n =>
    rw [process_folder_succ] at ho
    rcases List.mem_append.mp ho with ho | ho
    · exact move_files_loop_ops_moveFile env _ ap dr o ho
    · rw [is_archivable_leaf_folders_nil h] at ho
      simp at ho

/-- Claim C10: the root folder passed to `process_folder` is never itself
moved to the archive — no folder-move operation in the produced trace has
the root as its source, whatever the store contents (in particular even when
the root itself has the archivable-leaf shape). -/
theorem root_folder_never_moved (env : Env) (fuel : Nat) (fp ap : String) (defe dr : Bool) :
    ((process_folder env fuel fp ap defe dr).ops.all
      (fun o => match o with
        | Op.moveFolder src _ => !(src == fp)
        | _ => true)) = true := by
  rw [List.all_eq_true]
  intro o ho
  cases o with
  | moveFile a b => rfl
  | createFolder q => rfl
  | moveFolder src dst =>
    show (!(src == fp)) = true
    cases hsf : src == fp with
    | false => rfl
    | true =>
      exfalso
      have hsrc : src = fp := by simpa using hsf
      rw [hsrc] at ho
      have hleaf := process_folder_moveFolder_leaf env ap defe dr fuel fp fp dst ho
      obtain ⟨a, b, hab⟩ := process_folder_of_leaf_ops env fuel fp ap defe dr hleaf _ ho
      exact Op.noConfusion hab

end SdaDropbox
